import Mathlib

/-!
Verification of the authorized financing ledger (the ArcPool contract).

Shallow embedding notes:
* `uint256` values are `Nat`; Solidity 0.8 checked arithmetic is modelled by
  explicit guards against `UINT256MOD = 2 ^ 256`: an addition or
  multiplication whose mathematical result is `≥ 2 ^ 256`, or a subtraction
  that would go below zero, aborts the operation (`overflow` / `underflow`),
  exactly as the EVM panic-revert does.  Guards that are implied by a
  `require` directly above them in the source are omitted (they can never
  fire).
* `address` and `bytes32` values are `Nat` (the zero address is `0`).
* Every external function becomes `State → args → Except PoolError State`;
  an `Except.error` result models a revert, i.e. the caller's state is the
  unchanged pre-state.  This is the transactional all-or-nothing semantics
  of the execution environment.
* The outcome of an external value transfer (`call{value: _}`) is an oracle
  `Bool` argument (`true` = the transfer succeeds).
* `ECDSA.recover` on the EIP-712 digest is modelled by passing the recovered
  address as an explicit argument `recovered`; the digest is a deterministic
  function of `(invoiceId, sender, payoutAmount, repaymentAmount, dueDate,
  nonce, deadline)` and the domain, so the recovered identity is a function
  of those fields and the signature bytes.
* The role identifiers `DEFAULT_ADMIN_ROLE = 0x00`, `ADMIN_ROLE =
  keccak256(..)`, `AEGIS_ROLE = keccak256(..)` are three distinct constants;
  they are represented by the distinct naturals `0`, `1`, `2`.  No
  `_setRoleAdmin` call ever occurs, so the admin role of every role is
  `DEFAULT_ADMIN_ROLE`, and the public `grantRole` / `revokeRole` entry
  points (inherited from the access-control base) are guarded by
  `DEFAULT_ADMIN_ROLE`.
* Each public operation runs serialized (spec §5); the reentrancy guard
  flag is therefore always clear at operation entry and is not part of the
  modelled state.
-/

namespace ArcPool

/-- Modulus of the 256-bit machine integers. -/
def UINT256MOD : Nat := 2 ^ 256

/-- Revert reasons of the contract (one constructor per `require` string /
error condition, plus the checked-arithmetic panics). -/
inductive PoolError where
  | amountZero
  | insufficientDeposit
  | insufficientPoolLiquidity
  | transferFailed
  | invoiceAlreadyFinanced
  | signatureExpired
  | invalidTerms
  | invalidDueDate
  | invalidSignature
  | invoiceNotFinanced
  | alreadyRepaid
  | insufficientRepayment
  | protocolFeeTransferFailed
  | refundFailed
  | unauthorized
  | invalidWallet
  | feeRateTooHigh
  | invalidReceiver
  | overflow
  | underflow
deriving DecidableEq, Repr

/-- The `FinancingRecord` struct. -/
structure FinancingRecord where
  invoiceId : Nat
  supplier : Nat
  payoutAmount : Nat
  repaymentAmount : Nat
  dueDate : Nat
  timestamp : Nat
  repaid : Bool
deriving DecidableEq, Repr

/-- The all-zero record a Solidity mapping returns for an absent key. -/
def FinancingRecord.zero : FinancingRecord :=
  { invoiceId := 0, supplier := 0, payoutAmount := 0, repaymentAmount := 0,
    dueDate := 0, timestamp := 0, repaid := false }

/-- Identifier standing for `DEFAULT_ADMIN_ROLE` (`0x00`). -/
def DEFAULT_ADMIN_ROLE : Nat := 0

/-- Identifier standing for `ADMIN_ROLE = keccak256("ADMIN_ROLE")`. -/
def ADMIN_ROLE : Nat := 1

/-- Identifier standing for `AEGIS_ROLE = keccak256("AEGIS_ROLE")`. -/
def AEGIS_ROLE : Nat := 2

/-- The contract storage.  `usedInvoices` is the list of invoice ids that
have been set to `true` in the `usedInvoices` mapping (ids are only ever
inserted, never removed); the two other mappings are total functions with
the Solidity default value for absent keys. -/
structure State where
  aegisServerWallet : Nat
  totalPoolSize : Nat
  availableLiquidity : Nat
  totalFinanced : Nat
  totalInterestEarned : Nat
  protocolFeeRate : Nat
  protocolFeeReceiver : Nat
  usedInvoices : List Nat
  lpDeposits : Nat → Nat
  financingRecords : Nat → FinancingRecord
  roles : Nat → Nat → Bool

/-- Update of the role membership table at one (role, account) pair. -/
def setRole (roles : Nat → Nat → Bool) (role account : Nat) (v : Bool) :
    Nat → Nat → Bool :=
  fun r a => if r = role ∧ a = account then v else roles r a

/-- The constructor: requires a non-zero authorizer wallet, grants
`DEFAULT_ADMIN_ROLE` and `ADMIN_ROLE` to the deployer and `AEGIS_ROLE` to
the wallet, sets the fee receiver to the deployer and the fee rate to the
declared initial value `1000`, and credits any initial `msg.value` as the
deployer's LP deposit. -/
def mkPool (deployer aegisWallet value : Nat) : Except PoolError State :=
  if aegisWallet = 0 then .error .invalidWallet
  else .ok
    { aegisServerWallet := aegisWallet
      totalPoolSize := value
      availableLiquidity := value
      totalFinanced := 0
      totalInterestEarned := 0
      protocolFeeRate := 1000
      protocolFeeReceiver := deployer
      usedInvoices := []
      lpDeposits := Function.update (fun _ => 0) deployer value
      financingRecords := fun _ => FinancingRecord.zero
      roles := setRole (setRole (setRole (fun _ _ => false)
        DEFAULT_ADMIN_ROLE deployer true) ADMIN_ROLE deployer true)
        AEGIS_ROLE aegisWallet true }

/-- Internal `_processDeposit(depositor, amount)`. -/
def processDeposit (s : State) (depositor amount : Nat) :
    Except PoolError State :=
  if amount = 0 then .error .amountZero
  else if UINT256MOD ≤ s.lpDeposits depositor + amount then .error .overflow
  else if UINT256MOD ≤ s.totalPoolSize + amount then .error .overflow
  else if UINT256MOD ≤ s.availableLiquidity + amount then .error .overflow
  else .ok { s with
    lpDeposits :=
      Function.update s.lpDeposits depositor (s.lpDeposits depositor + amount)
    totalPoolSize := s.totalPoolSize + amount
    availableLiquidity := s.availableLiquidity + amount }

/-- External `deposit()`; `value` is `msg.value`. -/
def deposit (s : State) (sender value : Nat) : Except PoolError State :=
  processDeposit s sender value

/-- The `receive()` fallback: a direct value transfer with no call data,
forwarded to `_processDeposit(msg.sender, msg.value)`. -/
def receiveFallback (s : State) (sender value : Nat) : Except PoolError State :=
  processDeposit s sender value

/-- External `withdraw(amount)`.  The subtraction from `totalPoolSize` is
not covered by a `require`, so its checked-arithmetic guard is kept; the
two other subtractions cannot underflow given the preceding requires. -/
def withdraw (s : State) (sender amount : Nat) (transferOk : Bool) :
    Except PoolError State :=
  if amount = 0 then .error .amountZero
  else if s.lpDeposits sender < amount then .error .insufficientDeposit
  else if s.availableLiquidity < amount then .error .insufficientPoolLiquidity
  else if s.totalPoolSize < amount then .error .underflow
  else if transferOk = false then .error .transferFailed
  else .ok { s with
    lpDeposits :=
      Function.update s.lpDeposits sender (s.lpDeposits sender - amount)
    totalPoolSize := s.totalPoolSize - amount
    availableLiquidity := s.availableLiquidity - amount }

/-- External `withdrawFinancing(...)`.  `recovered` is the identity
`ECDSA.recover` yields on the EIP-712 digest of
`(invoiceId, sender, payoutAmount, repaymentAmount, dueDate, nonce,
deadline)` with the submitted signature; `now` is `block.timestamp`;
`transferOk` is the outcome of the payout transfer to the caller. -/
def withdrawFinancing (s : State)
    (sender invoiceId payoutAmount repaymentAmount dueDate nonce deadline
      recovered : Nat) (transferOk : Bool) (now : Nat) :
    Except PoolError State :=
  if invoiceId ∈ s.usedInvoices then .error .invoiceAlreadyFinanced
  else if deadline < now then .error .signatureExpired
  else if s.availableLiquidity < payoutAmount then
    .error .insufficientPoolLiquidity
  else if repaymentAmount ≤ payoutAmount then .error .invalidTerms
  else if dueDate ≤ now then .error .invalidDueDate
  else if recovered ≠ s.aegisServerWallet then .error .invalidSignature
  else if UINT256MOD ≤ s.totalFinanced + payoutAmount then .error .overflow
  else if transferOk = false then .error .transferFailed
  else .ok { s with
    usedInvoices := invoiceId :: s.usedInvoices
    availableLiquidity := s.availableLiquidity - payoutAmount
    totalFinanced := s.totalFinanced + payoutAmount
    financingRecords := Function.update s.financingRecords invoiceId
      { invoiceId := invoiceId, supplier := sender
        payoutAmount := payoutAmount, repaymentAmount := repaymentAmount
        dueDate := dueDate, timestamp := now, repaid := false } }

/-- Late-fee computation embedded in `repay` (source lines 256–263):
`1%` of the repayment amount per full day overdue, capped at `30%`;
the nonce `dueDate < now` guard keeps the subtraction exact. -/
def computeLateFee (repaymentAmount dueDate now : Nat) :
    Except PoolError Nat :=
  if now ≤ dueDate then .ok 0
  else
    let daysLate := (now - dueDate) / 86400
    if UINT256MOD ≤ repaymentAmount * daysLate then .error .overflow
    else if UINT256MOD ≤ repaymentAmount * daysLate * 100 then .error .overflow
    else if UINT256MOD ≤ repaymentAmount * 3000 then .error .overflow
    else
      let fee := repaymentAmount * daysLate * 100 / 10000
      let maxLateFee := repaymentAmount * 3000 / 10000
      .ok (if maxLateFee < fee then maxLateFee else fee)

/-- Interest computation and split of `repay` (source lines 267–273):
`baseInterest = repaymentAmount − payoutAmount`,
`totalInterest = baseInterest + lateFee`,
`protocolFee = totalInterest × protocolFeeRate / 10000`,
`lpInterest = totalInterest − protocolFee`; returns
`(totalInterest, lpInterest)`. -/
def splitInterest (r : FinancingRecord) (rate lateFee : Nat) :
    Except PoolError (Nat × Nat) :=
  if r.repaymentAmount < r.payoutAmount then .error .underflow
  else if UINT256MOD ≤ r.repaymentAmount - r.payoutAmount + lateFee then
    .error .overflow
  else
    let totalInterest := r.repaymentAmount - r.payoutAmount + lateFee
    if UINT256MOD ≤ totalInterest * rate then .error .overflow
    else if totalInterest < totalInterest * rate / 10000 then .error .underflow
    else .ok (totalInterest, totalInterest - totalInterest * rate / 10000)

/-- Ledger writes of `repay` (source lines 276–281): mark the record
repaid, return the principal plus the LP interest share to the available
liquidity, grow the pool by the LP interest share, accumulate the total
interest. -/
def creditRepayment (s : State) (invoiceId : Nat) (r : FinancingRecord)
    (totalInterest lpInterest : Nat) : Except PoolError State :=
  if UINT256MOD ≤ r.payoutAmount + lpInterest then .error .overflow
  else if UINT256MOD ≤ s.availableLiquidity + (r.payoutAmount + lpInterest)
    then .error .overflow
  else if UINT256MOD ≤ s.totalPoolSize + lpInterest then .error .overflow
  else if UINT256MOD ≤ s.totalInterestEarned + totalInterest then
    .error .overflow
  else .ok { s with
    financingRecords := Function.update s.financingRecords invoiceId
      { invoiceId := r.invoiceId, supplier := r.supplier
        payoutAmount := r.payoutAmount, repaymentAmount := r.repaymentAmount
        dueDate := r.dueDate, timestamp := r.timestamp, repaid := true }
    availableLiquidity := s.availableLiquidity + (r.payoutAmount + lpInterest)
    totalPoolSize := s.totalPoolSize + lpInterest
    totalInterestEarned := s.totalInterestEarned + totalInterest }

/-- External `repay(invoiceId)`; `value` is `msg.value`, `feeTransferOk` and
`refundOk` are the outcomes of the protocol-fee transfer and of the
excess-refund transfer (each consulted only when that transfer happens).
The protocol fee equals `totalInterest − lpInterest`. -/
def repay (s : State) (sender invoiceId value : Nat)
    (feeTransferOk refundOk : Bool) (now : Nat) : Except PoolError State :=
  let r := s.financingRecords invoiceId
  if invoiceId ∉ s.usedInvoices then .error .invoiceNotFinanced
  else if r.repaid then .error .alreadyRepaid
  else match computeLateFee r.repaymentAmount r.dueDate now with
  | .error e => .error e
  | .ok lateFee =>
    if r.dueDate < now ∧ UINT256MOD ≤ r.repaymentAmount + lateFee then
      .error .overflow
    else if value < r.repaymentAmount + lateFee then
      .error .insufficientRepayment
    else match splitInterest r s.protocolFeeRate lateFee with
    | .error e => .error e
    | .ok (totalInterest, lpInterest) =>
      match creditRepayment s invoiceId r totalInterest lpInterest with
      | .error e => .error e
      | .ok s1 =>
        if 0 < totalInterest - lpInterest ∧ feeTransferOk = false then
          .error .protocolFeeTransferFailed
        else if r.repaymentAmount + lateFee < value ∧ refundOk = false then
          .error .refundFailed
        else .ok s1

/-- Admin `updateAegisWallet(newWallet)`: guarded by `ADMIN_ROLE`; its body
calls the public `revokeRole` / `grantRole`, each guarded by the admin role
of `AEGIS_ROLE`, which is `DEFAULT_ADMIN_ROLE`. -/
def updateAegisWallet (s : State) (caller newWallet : Nat) :
    Except PoolError State :=
  if s.roles ADMIN_ROLE caller = false then .error .unauthorized
  else if newWallet = 0 then .error .invalidWallet
  else if s.roles DEFAULT_ADMIN_ROLE caller = false then .error .unauthorized
  else .ok { s with
    aegisServerWallet := newWallet
    roles := setRole (setRole s.roles AEGIS_ROLE s.aegisServerWallet false)
      AEGIS_ROLE newWallet true }

/-- Admin `updateProtocolFeeRate(newRate)`. -/
def updateProtocolFeeRate (s : State) (caller newRate : Nat) :
    Except PoolError State :=
  if s.roles ADMIN_ROLE caller = false then .error .unauthorized
  else if 5000 < newRate then .error .feeRateTooHigh
  else .ok { s with protocolFeeRate := newRate }

/-- Admin `updateProtocolFeeReceiver(newReceiver)`. -/
def updateProtocolFeeReceiver (s : State) (caller newReceiver : Nat) :
    Except PoolError State :=
  if s.roles ADMIN_ROLE caller = false then .error .unauthorized
  else if newReceiver = 0 then .error .invalidReceiver
  else .ok { s with protocolFeeReceiver := newReceiver }

/-- Inherited public `grantRole(role, account)`: requires the caller to hold
the admin role of `role`, which is always `DEFAULT_ADMIN_ROLE` here. -/
def grantRole (s : State) (caller role account : Nat) :
    Except PoolError State :=
  if s.roles DEFAULT_ADMIN_ROLE caller = false then .error .unauthorized
  else .ok { s with roles := setRole s.roles role account true }

/-- Inherited public `revokeRole(role, account)`. -/
def revokeRole (s : State) (caller role account : Nat) :
    Except PoolError State :=
  if s.roles DEFAULT_ADMIN_ROLE caller = false then .error .unauthorized
  else .ok { s with roles := setRole s.roles role account false }

/-- Inherited public `renounceRole(role, callerConfirmation)`. -/
def renounceRole (s : State) (caller role confirmation : Nat) :
    Except PoolError State :=
  if confirmation ≠ caller then .error .unauthorized
  else .ok { s with roles := setRole s.roles role caller false }

/-- One public state-mutating entry point with all of its inputs (caller,
call data, `block.timestamp`, transfer-outcome oracles). -/
inductive Op where
  | deposit (sender value : Nat)
  | withdraw (sender amount : Nat) (transferOk : Bool)
  | withdrawFinancing
      (sender invoiceId payoutAmount repaymentAmount dueDate nonce deadline
        recovered : Nat) (transferOk : Bool) (now : Nat)
  | repay (sender invoiceId value : Nat) (feeTransferOk refundOk : Bool)
      (now : Nat)
  | updateAegisWallet (caller newWallet : Nat)
  | updateProtocolFeeRate (caller newRate : Nat)
  | updateProtocolFeeReceiver (caller newReceiver : Nat)
  | grantRole (caller role account : Nat)
  | revokeRole (caller role account : Nat)
  | renounceRole (caller role confirmation : Nat)
  | receiveFallback (sender value : Nat)

/-- Dispatch one entry point. -/
def applyOp (s : State) : Op → Except PoolError State
  | .deposit sender value => deposit s sender value
  | .withdraw sender amount ok => withdraw s sender amount ok
  | .withdrawFinancing sender id p rp dd n dl rec ok now =>
      withdrawFinancing s sender id p rp dd n dl rec ok now
  | .repay sender id v fOk rOk now => repay s sender id v fOk rOk now
  | .updateAegisWallet caller w => updateAegisWallet s caller w
  | .updateProtocolFeeRate caller rate => updateProtocolFeeRate s caller rate
  | .updateProtocolFeeReceiver caller recv =>
      updateProtocolFeeReceiver s caller recv
  | .grantRole caller role acct => grantRole s caller role acct
  | .revokeRole caller role acct => revokeRole s caller role acct
  | .renounceRole caller role conf => renounceRole s caller role conf
  | .receiveFallback sender value => receiveFallback s sender value

/-- Transactional execution: a reverted call leaves the state unchanged. -/
def exec (s : State) (op : Op) : State :=
  match applyOp s op with
  | .ok s1 => s1
  | .error _ => s

/-- Execute a call sequence. -/
def execOps (s : State) (ops : List Op) : State :=
  ops.foldl exec s

/-- States reachable from some successful deployment by some call
sequence. -/
def Reachable (s : State) : Prop :=
  ∃ deployer wallet value ops s0,
    mkPool deployer wallet value = Except.ok s0 ∧ s = execOps s0 ops

/-- Contribution of one invoice id to the outstanding financed principal:
its payout amount while the record is unrepaid, `0` afterwards. -/
def contribution (f : Nat → FinancingRecord) (i : Nat) : Nat :=
  if (f i).repaid then 0 else (f i).payoutAmount

/-- Outstanding financed principal: sum of the unrepaid payout amounts over
the used-invoice set. -/
def outstanding (s : State) : Nat :=
  (s.usedInvoices.map (contribution s.financingRecords)).sum

/-- Inductive invariant: the used-invoice list is duplicate-free and the
available liquidity plus the outstanding financed principal never exceeds
the pool size.  It strengthens `availableLiquidity ≤ totalPoolSize`. -/
def Inv (s : State) : Prop :=
  s.usedInvoices.Nodup ∧ s.availableLiquidity + outstanding s ≤ s.totalPoolSize

/-- Late-fee formula as the specification states it: zero when on time,
otherwise 1% of the repayment amount per full day late, capped at 30%,
under integer (floor) arithmetic. -/
def lateFeeSpec (repaymentAmount dueDate now : Nat) : Nat :=
  if now ≤ dueDate then 0
  else min (repaymentAmount * ((now - dueDate) / 86400) * 100 / 10000)
    (repaymentAmount * 3000 / 10000)

/-- The immutable part of a record: every field except the `repaid` flag. -/
def FinancingRecord.core (r : FinancingRecord) : FinancingRecord :=
  { r with repaid := false }

/-- Total interest realized when the record of `invoiceId` is repaid at
`now`: base interest `repaymentAmount − payoutAmount` plus the late fee. -/
def totalInterestAt (s : State) (invoiceId now : Nat) : Nat :=
  ((s.financingRecords invoiceId).repaymentAmount -
    (s.financingRecords invoiceId).payoutAmount) +
  lateFeeSpec (s.financingRecords invoiceId).repaymentAmount
    (s.financingRecords invoiceId).dueDate now

/-- Whether an entry point is a `withdrawFinancing` call on invoice `i`. -/
def Op.financesInvoice : Op → Nat → Prop
  | .withdrawFinancing _ id _ _ _ _ _ _ _ _, i => id = i
  | _, _ => False

/-- Whether an entry point is a `repay` call on invoice `i`. -/
def Op.repaysInvoice : Op → Nat → Prop
  | .repay _ id _ _ _ _, i => id = i
  | _, _ => False

/-- Record invariant: an invoice id outside the used-invoice set still has
the all-zero default record (records are written only together with the
insertion of their id into the set). -/
def RecInv (s : State) : Prop :=
  ∀ j, j ∉ s.usedInvoices → s.financingRecords j = FinancingRecord.zero

/-- An arbitrary state, used only to give `Except.toOption.getD` a default
in the concrete example states below. -/
def defaultState : State :=
  { aegisServerWallet := 0, totalPoolSize := 0, availableLiquidity := 0,
    totalFinanced := 0, totalInterestEarned := 0, protocolFeeRate := 0,
    protocolFeeReceiver := 0, usedInvoices := [],
    lpDeposits := fun _ => 0,
    financingRecords := fun _ => FinancingRecord.zero,
    roles := fun _ _ => false }

/-- Example deployment: deployer `1`, authorizer wallet `2`, no seed
liquidity. -/
def s0ex : State := (mkPool 1 2 0).toOption.getD defaultState

/-- `s0ex` after LP `3` deposits `1000000`. -/
def sAex : State := exec s0ex (.deposit 3 1000000)

/-- `sAex` after supplier `7` finances invoice `42` with payout `98000`,
repayment `100000`, due date `1000000`, nonce `5`, deadline `500`, a
signature recovering the authorizer `2`, a successful payout transfer, at
time `100`. -/
def sBex : State :=
  exec sAex (.withdrawFinancing 7 42 98000 100000 1000000 5 500 2 true 100)

/-- `s0ex` after the deployer grants `ADMIN_ROLE` to account `5` (who does
not hold `DEFAULT_ADMIN_ROLE`). -/
def sRoleEx : State := exec s0ex (.grantRole 1 ADMIN_ROLE 5)

/-! ## Helper lemmas -/

lemma processDeposit_ok {s s1 : State} {d a : Nat}
    (h : processDeposit s d a = .ok s1) :
    0 < a ∧ s1 = { s with
      lpDeposits := Function.update s.lpDeposits d (s.lpDeposits d + a)
      totalPoolSize := s.totalPoolSize + a
      availableLiquidity := s.availableLiquidity + a } := by
  unfold processDeposit at h
  repeat' split at h
  any_goals exact Except.noConfusion h
  injection h with h2
  subst h2
  exact ⟨by omega, rfl⟩

lemma withdraw_ok {s s1 : State} {sender a : Nat} {tOk : Bool}
    (h : withdraw s sender a tOk = .ok s1) :
    0 < a ∧ a ≤ s.lpDeposits sender ∧ a ≤ s.availableLiquidity ∧
      a ≤ s.totalPoolSize ∧ tOk = true ∧ s1 = { s with
      lpDeposits := Function.update s.lpDeposits sender (s.lpDeposits sender - a)
      totalPoolSize := s.totalPoolSize - a
      availableLiquidity := s.availableLiquidity - a } := by
  unfold withdraw at h
  repeat' split at h
  any_goals exact Except.noConfusion h
  injection h with h2
  subst h2
  refine ⟨by omega, by omega, by omega, by omega, ?_, rfl⟩
  rename_i hok
  simpa using hok

lemma withdrawFinancing_ok {s s1 : State}
    {sender id p rp dd n dl rec : Nat} {tOk : Bool} {now : Nat}
    (h : withdrawFinancing s sender id p rp dd n dl rec tOk now = .ok s1) :
    id ∉ s.usedInvoices ∧ now ≤ dl ∧ p ≤ s.availableLiquidity ∧
      p < rp ∧ now < dd ∧ rec = s.aegisServerWallet ∧ tOk = true ∧
      s1 = { s with
        usedInvoices := id :: s.usedInvoices
        availableLiquidity := s.availableLiquidity - p
        totalFinanced := s.totalFinanced + p
        financingRecords := Function.update s.financingRecords id
          { invoiceId := id, supplier := sender, payoutAmount := p
            repaymentAmount := rp, dueDate := dd, timestamp := now
            repaid := false } } := by
  unfold withdrawFinancing at h
  repeat' split at h
  any_goals exact Except.noConfusion h
  injection h with h2
  subst h2
  rename_i hused hdl hliq hterms hdue hsig hov hok
  refine ⟨hused, by omega, by omega, by omega, by omega, ?_, ?_, rfl⟩
  · simpa using hsig
  · simpa using hok

lemma computeLateFee_ok {rp dd now fee : Nat}
    (h : computeLateFee rp dd now = .ok fee) :
    fee = lateFeeSpec rp dd now := by
  unfold lateFeeSpec
  simp only [computeLateFee] at h
  split at h
  · injection h with h2
    rename_i hle
    rw [if_pos hle]
    omega
  · rename_i hle
    rw [if_neg hle]
    repeat' split at h
    any_goals exact Except.noConfusion h
    all_goals injection h with h2
    all_goals rw [Nat.min_def]
    all_goals split
    all_goals omega

lemma splitInterest_ok {r : FinancingRecord} {rate fee ti lpi : Nat}
    (h : splitInterest r rate fee = .ok (ti, lpi)) :
    r.payoutAmount ≤ r.repaymentAmount ∧
      ti = r.repaymentAmount - r.payoutAmount + fee ∧
      ti * rate / 10000 ≤ ti ∧
      lpi = ti - ti * rate / 10000 := by
  simp only [splitInterest] at h
  repeat' split at h
  any_goals exact Except.noConfusion h
  injection h with h2
  injection h2 with h3 h4
  subst h3
  subst h4
  refine ⟨by omega, rfl, by omega, rfl⟩

lemma creditRepayment_ok {s : State} {i : Nat} {r : FinancingRecord}
    {ti lpi : Nat} {s1 : State}
    (h : creditRepayment s i r ti lpi = .ok s1) :
    s1.availableLiquidity = s.availableLiquidity + (r.payoutAmount + lpi) ∧
      s1.totalPoolSize = s.totalPoolSize + lpi ∧
      s1.totalInterestEarned = s.totalInterestEarned + ti ∧
      s1.usedInvoices = s.usedInvoices ∧
      s1.lpDeposits = s.lpDeposits ∧
      s1.totalFinanced = s.totalFinanced ∧
      s1.aegisServerWallet = s.aegisServerWallet ∧
      s1.protocolFeeRate = s.protocolFeeRate ∧
      s1.protocolFeeReceiver = s.protocolFeeReceiver ∧
      s1.roles = s.roles ∧
      s1.financingRecords = Function.update s.financingRecords i
        { invoiceId := r.invoiceId, supplier := r.supplier
          payoutAmount := r.payoutAmount, repaymentAmount := r.repaymentAmount
          dueDate := r.dueDate, timestamp := r.timestamp, repaid := true } := by
  unfold creditRepayment at h
  repeat' split at h
  any_goals exact Except.noConfusion h
  injection h with h2
  subst h2
  exact ⟨rfl, rfl, rfl, rfl, rfl, rfl, rfl, rfl, rfl, rfl, rfl⟩

lemma repay_ok {s s1 : State} {sender i v : Nat} {fOk rOk : Bool} {now : Nat}
    (h : repay s sender i v fOk rOk now = .ok s1) :
    ∃ fee ti lpi,
      computeLateFee (s.financingRecords i).repaymentAmount
        (s.financingRecords i).dueDate now = .ok fee ∧
      i ∈ s.usedInvoices ∧ (s.financingRecords i).repaid = false ∧
      (s.financingRecords i).repaymentAmount + fee ≤ v ∧
      (s.financingRecords i).payoutAmount ≤
        (s.financingRecords i).repaymentAmount ∧
      ti = (s.financingRecords i).repaymentAmount -
        (s.financingRecords i).payoutAmount + fee ∧
      ti * s.protocolFeeRate / 10000 ≤ ti ∧
      lpi = ti - ti * s.protocolFeeRate / 10000 ∧
      creditRepayment s i (s.financingRecords i) ti lpi = .ok s1 := by
  simp only [repay] at h
  repeat' split at h
  any_goals exact Except.noConfusion h
  rename_i hmem hrep xa lateFee hfee hov hval xb ti lpi hsplit xc s2 hcredit
    hfok hrok
  injection h with h2
  subst h2
  obtain ⟨hpo, hti, hpf, hlpi⟩ := splitInterest_ok hsplit
  exact ⟨lateFee, ti, lpi, hfee, by simpa using hmem, by simpa using hrep,
    by omega, hpo, hti, hpf, hlpi, hcredit⟩

lemma updateAegisWallet_ok {s s1 : State} {caller w : Nat}
    (h : updateAegisWallet s caller w = .ok s1) :
    s.roles ADMIN_ROLE caller = true ∧ w ≠ 0 ∧
      s.roles DEFAULT_ADMIN_ROLE caller = true ∧
      s1 = { s with
        aegisServerWallet := w
        roles := setRole (setRole s.roles AEGIS_ROLE s.aegisServerWallet false)
          AEGIS_ROLE w true } := by
  unfold updateAegisWallet at h
  repeat' split at h
  any_goals exact Except.noConfusion h
  injection h with h2
  subst h2
  rename_i h1 h2 h3
  exact ⟨by simpa using h1, h2, by simpa using h3, rfl⟩

lemma updateProtocolFeeRate_ok {s s1 : State} {caller rate : Nat}
    (h : updateProtocolFeeRate s caller rate = .ok s1) :
    s.roles ADMIN_ROLE caller = true ∧ rate ≤ 5000 ∧
      s1 = { s with protocolFeeRate := rate } := by
  unfold updateProtocolFeeRate at h
  repeat' split at h
  any_goals exact Except.noConfusion h
  injection h with h2
  subst h2
  rename_i h1 h2
  exact ⟨by simpa using h1, by omega, rfl⟩

lemma updateProtocolFeeReceiver_ok {s s1 : State} {caller recv : Nat}
    (h : updateProtocolFeeReceiver s caller recv = .ok s1) :
    s.roles ADMIN_ROLE caller = true ∧ recv ≠ 0 ∧
      s1 = { s with protocolFeeReceiver := recv } := by
  unfold updateProtocolFeeReceiver at h
  repeat' split at h
  any_goals exact Except.noConfusion h
  injection h with h2
  subst h2
  rename_i h1 h2
  exact ⟨by simpa using h1, h2, rfl⟩

lemma grantRole_ok {s s1 : State} {caller role acct : Nat}
    (h : grantRole s caller role acct = .ok s1) :
    s.roles DEFAULT_ADMIN_ROLE caller = true ∧
      s1 = { s with roles := setRole s.roles role acct true } := by
  unfold grantRole at h
  repeat' split at h
  any_goals exact Except.noConfusion h
  injection h with h2
  subst h2
  rename_i h1
  exact ⟨by simpa using h1, rfl⟩

lemma revokeRole_ok {s s1 : State} {caller role acct : Nat}
    (h : revokeRole s caller role acct = .ok s1) :
    s.roles DEFAULT_ADMIN_ROLE caller = true ∧
      s1 = { s with roles := setRole s.roles role acct false } := by
  unfold revokeRole at h
  repeat' split at h
  any_goals exact Except.noConfusion h
  injection h with h2
  subst h2
  rename_i h1
  exact ⟨by simpa using h1, rfl⟩

lemma renounceRole_ok {s s1 : State} {caller role conf : Nat}
    (h : renounceRole s caller role conf = .ok s1) :
    conf = caller ∧
      s1 = { s with roles := setRole s.roles role caller false } := by
  unfold renounceRole at h
  repeat' split at h
  any_goals exact Except.noConfusion h
  injection h with h2
  subst h2
  rename_i h1
  exact ⟨by simpa using h1, rfl⟩

lemma mkPool_ok {d w v : Nat} {s0 : State}
    (h : mkPool d w v = .ok s0) :
    w ≠ 0 ∧ s0 =
      { aegisServerWallet := w,
        totalPoolSize := v,
        availableLiquidity := v,
        totalFinanced := 0,
        totalInterestEarned := 0,
        protocolFeeRate := 1000,
        protocolFeeReceiver := d,
        usedInvoices := [],
        lpDeposits := Function.update (fun _ => 0) d v,
        financingRecords := fun _ => FinancingRecord.zero,
        roles := setRole (setRole (setRole (fun _ _ => false)
          DEFAULT_ADMIN_ROLE d true) ADMIN_ROLE d true)
          AEGIS_ROLE w true } := by
  unfold mkPool at h
  repeat' split at h
  any_goals exact Except.noConfusion h
  injection h with h2
  subst h2
  rename_i h1
  exact ⟨h1, rfl⟩

lemma sum_map_zero_at {l : List Nat} {g g1 : Nat → Nat} {i : Nat}
    (hl : l.Nodup) (hmem : i ∈ l) (hzero : g1 i = 0)
    (hother : ∀ j, j ≠ i → g1 j = g j) :
    (l.map g1).sum + g i = (l.map g).sum := by
  induction l with
  | nil => cases hmem
  | cons a t ih =>
    rcases List.mem_cons.mp hmem with rfl | hmem2
    · have ht : t.map g1 = t.map g := List.map_congr_left
        (fun j hj => hother j (fun hji => (List.nodup_cons.mp hl).1 (by rw [← hji]; exact hj)))
      simp only [List.map_cons, List.sum_cons, hzero, ht]
      omega
    · have hai : a ≠ i := fun he => (List.nodup_cons.mp hl).1 (by rw [he]; exact hmem2)
      have := ih (List.nodup_cons.mp hl).2 hmem2
      simp only [List.map_cons, List.sum_cons, hother a hai]
      omega

lemma map_contribution_update_not_mem {l : List Nat}
    {f : Nat → FinancingRecord} {i : Nat} {r : FinancingRecord}
    (hmem : i ∉ l) :
    l.map (contribution (Function.update f i r)) = l.map (contribution f) :=
  List.map_congr_left fun j hj => by
    unfold contribution
    rw [Function.update_noteq (fun hji => hmem (by rw [← hji]; exact hj)) r f]

lemma inv_exec {s : State} (op : Op) (hs : Inv s) : Inv (exec s op) := by
  unfold exec
  cases hop : applyOp s op with
  | error e => exact hs
  | ok s1 =>
    obtain ⟨hnd, hle⟩ := hs
    cases op with
    | deposit sender value =>
      simp only [applyOp, deposit, receiveFallback] at hop
      obtain ⟨-, rfl⟩ := processDeposit_ok hop
      refine ⟨hnd, ?_⟩
      simp only [outstanding] at hle ⊢
      omega
    | receiveFallback sender value =>
      simp only [applyOp, deposit, receiveFallback] at hop
      obtain ⟨-, rfl⟩ := processDeposit_ok hop
      refine ⟨hnd, ?_⟩
      simp only [outstanding] at hle ⊢
      omega
    | withdraw sender amount tOk =>
      simp only [applyOp, deposit, receiveFallback] at hop
      obtain ⟨-, -, hav, htp, -, rfl⟩ := withdraw_ok hop
      refine ⟨hnd, ?_⟩
      simp only [outstanding] at hle ⊢
      omega
    | withdrawFinancing sender id p rp dd n dl rec tOk now =>
      simp only [applyOp, deposit, receiveFallback] at hop
      obtain ⟨hused, -, hliq, -, -, -, -, rfl⟩ := withdrawFinancing_ok hop
      refine ⟨List.nodup_cons.mpr ⟨hused, hnd⟩, ?_⟩
      simp only [outstanding, List.map_cons, List.sum_cons,
        map_contribution_update_not_mem hused] at hle ⊢
      have hcontr : contribution (Function.update s.financingRecords id
          { invoiceId := id, supplier := sender, payoutAmount := p
            repaymentAmount := rp, dueDate := dd, timestamp := now
            repaid := false }) id = p := by
        simp [contribution, Function.update_same]
      rw [hcontr]
      omega
    | repay sender i v fOk rOk now =>
      simp only [applyOp, deposit, receiveFallback] at hop
      obtain ⟨fee, ti, lpi, -, hmem, hunpaid, -, -, -, -, -, hcredit⟩ :=
        repay_ok hop
      obtain ⟨hav, htp, -, hused, -, -, -, -, -, -, hrec⟩ :=
        creditRepayment_ok hcredit
      constructor
      · rw [hused]; exact hnd
      · have hzero : contribution (s1.financingRecords) i = 0 := by
          rw [hrec]
          simp [contribution, Function.update_same]
        have hother : ∀ j, j ≠ i →
            contribution (s1.financingRecords) j =
            contribution s.financingRecords j := by
          intro j hj
          rw [hrec]
          unfold contribution
          rw [Function.update_noteq hj _ _]
        have hsum := sum_map_zero_at hnd hmem hzero hother
        have hcontr : contribution s.financingRecords i =
            (s.financingRecords i).payoutAmount := by
          unfold contribution
          rw [hunpaid]
          simp
        simp only [outstanding] at hle ⊢
        rw [hcontr] at hsum
        rw [hused, hav, htp]
        omega
    | updateAegisWallet caller w =>
      simp only [applyOp, deposit, receiveFallback] at hop
      obtain ⟨-, -, -, rfl⟩ := updateAegisWallet_ok hop
      exact ⟨hnd, hle⟩
    | updateProtocolFeeRate caller rate =>
      simp only [applyOp, deposit, receiveFallback] at hop
      obtain ⟨-, -, rfl⟩ := updateProtocolFeeRate_ok hop
      exact ⟨hnd, hle⟩
    | updateProtocolFeeReceiver caller recv =>
      simp only [applyOp, deposit, receiveFallback] at hop
      obtain ⟨-, -, rfl⟩ := updateProtocolFeeReceiver_ok hop
      exact ⟨hnd, hle⟩
    | grantRole caller role acct =>
      simp only [applyOp, deposit, receiveFallback] at hop
      obtain ⟨-, rfl⟩ := grantRole_ok hop
      exact ⟨hnd, hle⟩
    | revokeRole caller role acct =>
      simp only [applyOp, deposit, receiveFallback] at hop
      obtain ⟨-, rfl⟩ := revokeRole_ok hop
      exact ⟨hnd, hle⟩
    | renounceRole caller role conf =>
      simp only [applyOp, deposit, receiveFallback] at hop
      obtain ⟨-, rfl⟩ := renounceRole_ok hop
      exact ⟨hnd, hle⟩

lemma inv_execOps {s : State} (ops : List Op) (hs : Inv s) :
    Inv (execOps s ops) := by
  induction ops generalizing s with
  | nil => exact hs
  | cons op t ih =>
    simp only [execOps, List.foldl_cons]
    exact ih (inv_exec op hs)

lemma mkPool_inv {d w v : Nat} {s0 : State} (h : mkPool d w v = .ok s0) :
    Inv s0 := by
  obtain ⟨-, rfl⟩ := mkPool_ok h
  exact ⟨List.nodup_nil, by simp [outstanding]⟩

/-! ## Claim theorems -/

/-- C1: for every state reachable from initialization by any sequence of
deposit, withdraw, withdrawFinancing, repay and admin operations (each
committing fully or reverting fully), the pool satisfies
`0 ≤ availableLiquidity ≤ totalPoolSize`. -/
theorem reachable_liquidity_within_pool (s : State) (h : Reachable s) :
    0 ≤ s.availableLiquidity ∧ s.availableLiquidity ≤ s.totalPoolSize := by
  obtain ⟨d, w, v, ops, s0, h0, rfl⟩ := h
  have h2 : Inv (execOps s0 ops) := inv_execOps ops (mkPool_inv h0)
  exact ⟨Nat.zero_le _, le_trans (Nat.le_add_right _ _) h2.2⟩

/-- C1 witness: the invariant holds at the concrete deployed state. -/
theorem reachable_liquidity_within_pool_witness :
    0 ≤ s0ex.availableLiquidity ∧
      s0ex.availableLiquidity ≤ s0ex.totalPoolSize :=
  reachable_liquidity_within_pool s0ex ⟨1, 2, 0, [], s0ex, rfl, rfl⟩

lemma exec_of_error {s : State} {op : Op} {e : PoolError}
    (h : applyOp s op = .error e) : exec s op = s := by
  unfold exec
  rw [h]

lemma exec_of_ok {s s1 : State} {op : Op} (h : applyOp s op = .ok s1) :
    exec s op = s1 := by
  unfold exec
  rw [h]

/-- C2: `withdrawFinancing` succeeds only if the invoice is fresh, the
deadline has not passed, the payout fits the available liquidity, the
repayment exceeds the payout, the due date is in the future and the
signature recovers the current authorizer wallet; otherwise it rejects
with the error of the first failing check, the checks applied in exactly
this order.  An error result is a revert, so the state is unchanged. -/
theorem withdrawFinancing_validation_order (s : State)
    (sender id p rp dd n dl rec : Nat) (tOk : Bool) (now : Nat) :
    (id ∈ s.usedInvoices →
      withdrawFinancing s sender id p rp dd n dl rec tOk now =
        .error .invoiceAlreadyFinanced) ∧
    (id ∉ s.usedInvoices → dl < now →
      withdrawFinancing s sender id p rp dd n dl rec tOk now =
        .error .signatureExpired) ∧
    (id ∉ s.usedInvoices → now ≤ dl → s.availableLiquidity < p →
      withdrawFinancing s sender id p rp dd n dl rec tOk now =
        .error .insufficientPoolLiquidity) ∧
    (id ∉ s.usedInvoices → now ≤ dl → p ≤ s.availableLiquidity → rp ≤ p →
      withdrawFinancing s sender id p rp dd n dl rec tOk now =
        .error .invalidTerms) ∧
    (id ∉ s.usedInvoices → now ≤ dl → p ≤ s.availableLiquidity → p < rp →
      dd ≤ now →
      withdrawFinancing s sender id p rp dd n dl rec tOk now =
        .error .invalidDueDate) ∧
    (id ∉ s.usedInvoices → now ≤ dl → p ≤ s.availableLiquidity → p < rp →
      now < dd → rec ≠ s.aegisServerWallet →
      withdrawFinancing s sender id p rp dd n dl rec tOk now =
        .error .invalidSignature) ∧
    (∀ s1, withdrawFinancing s sender id p rp dd n dl rec tOk now = .ok s1 →
      id ∉ s.usedInvoices ∧ now ≤ dl ∧ p ≤ s.availableLiquidity ∧ p < rp ∧
        now < dd ∧ rec = s.aegisServerWallet) := by
  refine ⟨?_, ?_, ?_, ?_, ?_, ?_, ?_⟩
  · intro h1
    simp [withdrawFinancing, h1]
  · intro h1 h2
    simp [withdrawFinancing, h1, h2, Nat.not_le.mpr h2]
  · intro h1 h2 h3
    simp [withdrawFinancing, h1, Nat.not_lt.mpr h2, h3, Nat.not_le.mpr h3]
  · intro h1 h2 h3 h4
    simp [withdrawFinancing, h1, Nat.not_lt.mpr h2, Nat.not_lt.mpr h3, h4]
  · intro h1 h2 h3 h4 h5
    simp [withdrawFinancing, h1, Nat.not_lt.mpr h2, Nat.not_lt.mpr h3,
      Nat.not_le.mpr h4, h5]
  · intro h1 h2 h3 h4 h5 h6
    simp [withdrawFinancing, h1, Nat.not_lt.mpr h2, Nat.not_lt.mpr h3,
      Nat.not_le.mpr h4, Nat.not_le.mpr h5, h6]
  · intro s1 h
    obtain ⟨ha, hb, hc, hd, he, hf, -, -⟩ := withdrawFinancing_ok h
    exact ⟨ha, hb, hc, hd, he, hf⟩

/-- C2 witness: replaying the already-financed invoice `42` of `sBex` is
rejected with `InvoiceAlreadyFinanced`. -/
theorem withdrawFinancing_validation_order_witness :
    withdrawFinancing sBex 7 42 1 2 999 0 999 2 true 50 =
      Except.error PoolError.invoiceAlreadyFinanced :=
  (withdrawFinancing_validation_order sBex 7 42 1 2 999 0 999 2 true 50).1
    (by decide)

/-- C3: when every validation check of `withdrawFinancing` passes but the
payout transfer to the caller fails, and when the checks of `withdraw` pass
but its transfer fails, the call reverts with `TransferFailed` and the
post-call state is exactly the pre-call state (used-invoice set, financing
records, pool totals and LP positions included). -/
theorem transfer_failure_atomic_rollback (s : State)
    (sender id p rp dd n dl rec amount now : Nat) :
    (id ∉ s.usedInvoices → now ≤ dl → p ≤ s.availableLiquidity → p < rp →
      now < dd → rec = s.aegisServerWallet →
      s.totalFinanced + p < UINT256MOD →
      withdrawFinancing s sender id p rp dd n dl rec false now =
        .error .transferFailed ∧
      exec s (.withdrawFinancing sender id p rp dd n dl rec false now) = s) ∧
    (0 < amount → amount ≤ s.lpDeposits sender →
      amount ≤ s.availableLiquidity → amount ≤ s.totalPoolSize →
      withdraw s sender amount false = .error .transferFailed ∧
      exec s (.withdraw sender amount false) = s) := by
  constructor
  · intro h1 h2 h3 h4 h5 h6 h7
    have herr : withdrawFinancing s sender id p rp dd n dl rec false now =
        .error .transferFailed := by
      simp [withdrawFinancing, h1, Nat.not_lt.mpr h2, Nat.not_lt.mpr h3,
        Nat.not_le.mpr h4, Nat.not_le.mpr h5, h6, Nat.not_le.mpr h7]
    exact ⟨herr, exec_of_error (by simpa [applyOp] using herr)⟩
  · intro h1 h2 h3 h4
    have herr : withdraw s sender amount false = .error .transferFailed := by
      simp [withdraw, Nat.pos_iff_ne_zero.mp h1, Nat.not_lt.mpr h2,
        Nat.not_lt.mpr h3, Nat.not_lt.mpr h4]
    exact ⟨herr, exec_of_error (by simpa [applyOp] using herr)⟩

/-- C3 witness: a fully valid financing request on fresh invoice `77` whose
payout transfer fails, and a valid withdrawal whose transfer fails, both
revert and leave `sAex` unchanged. -/
theorem transfer_failure_atomic_rollback_witness :
    (withdrawFinancing sAex 7 77 5 10 1000000 0 500 2 false 100 =
        Except.error PoolError.transferFailed ∧
      exec sAex (.withdrawFinancing 7 77 5 10 1000000 0 500 2 false 100) =
        sAex) ∧
    (withdraw sAex 3 3 false = Except.error PoolError.transferFailed ∧
      exec sAex (.withdraw 3 3 false) = sAex) :=
  ⟨(transfer_failure_atomic_rollback sAex 7 77 5 10 1000000 0 500 2 3
      100).1 (by decide) (by decide) (by decide) (by decide) (by decide)
      (by decide) (by decide),
    (transfer_failure_atomic_rollback sAex 3 77 5 10 1000000 0 500 2 3
      100).2 (by decide) (by decide) (by decide) (by decide)⟩

/-- C4: once an invoice id is in the used-invoice set, every further
`withdrawFinancing` call on it — with any nonce, any signature and any
other arguments — reverts with `InvoiceAlreadyFinanced` and leaves the
state identical; the used-invoice set is the only replay defense (no
used-nonce table exists in the state). -/
theorem replay_same_invoice_rejected (s : State)
    (sender id p rp dd n dl rec : Nat) (tOk : Bool) (now : Nat)
    (h : id ∈ s.usedInvoices) :
    withdrawFinancing s sender id p rp dd n dl rec tOk now =
      .error .invoiceAlreadyFinanced ∧
    exec s (.withdrawFinancing sender id p rp dd n dl rec tOk now) = s := by
  have herr : withdrawFinancing s sender id p rp dd n dl rec tOk now =
      .error .invoiceAlreadyFinanced := by
    simp [withdrawFinancing, h]
  exact ⟨herr, exec_of_error (by simpa [applyOp] using herr)⟩

/-- C4 witness: a second validly-signed message for invoice `42` with a
fresh nonce `6` is still rejected on `sBex` and changes nothing. -/
theorem replay_same_invoice_rejected_witness :
    withdrawFinancing sBex 7 42 98000 100000 1000000 6 500 2 true 100 =
      Except.error PoolError.invoiceAlreadyFinanced ∧
    exec sBex (.withdrawFinancing 7 42 98000 100000 1000000 6 500 2 true 100)
      = sBex :=
  replay_same_invoice_rejected sBex 7 42 98000 100000 1000000 6 500 2 true
    100 (by decide)

/-- C5: every successful `repay` of a financed, unrepaid record with a
sufficient payment changes the state by exactly
`availableLiquidity += payoutAmount + lpInterest`,
`totalPoolSize += lpInterest`, `totalInterestEarned += totalInterest`,
marks the record repaid and touches nothing else, where
`totalInterest = (repaymentAmount − payoutAmount) + lateFee`,
`protocolFee = ⌊totalInterest · protocolFeeRateBps / 10000⌋` and
`lpInterest = totalInterest − protocolFee`. -/
theorem repay_interest_accounting (s s1 : State)
    (sender invoiceId value : Nat) (fOk rOk : Bool) (now : Nat)
    (h : repay s sender invoiceId value fOk rOk now = .ok s1) :
    invoiceId ∈ s.usedInvoices ∧
    (s.financingRecords invoiceId).repaid = false ∧
    (s.financingRecords invoiceId).repaymentAmount +
      lateFeeSpec (s.financingRecords invoiceId).repaymentAmount
        (s.financingRecords invoiceId).dueDate now ≤ value ∧
    s1.availableLiquidity = s.availableLiquidity +
      ((s.financingRecords invoiceId).payoutAmount +
        (totalInterestAt s invoiceId now -
          totalInterestAt s invoiceId now * s.protocolFeeRate / 10000)) ∧
    s1.totalPoolSize = s.totalPoolSize +
      (totalInterestAt s invoiceId now -
        totalInterestAt s invoiceId now * s.protocolFeeRate / 10000) ∧
    s1.totalInterestEarned = s.totalInterestEarned +
      totalInterestAt s invoiceId now ∧
    (s1.financingRecords invoiceId).repaid = true ∧
    s1.usedInvoices = s.usedInvoices ∧
    s1.lpDeposits = s.lpDeposits ∧
    s1.totalFinanced = s.totalFinanced ∧
    s1.protocolFeeRate = s.protocolFeeRate ∧
    s1.aegisServerWallet = s.aegisServerWallet ∧
    (∀ j, j ≠ invoiceId → s1.financingRecords j = s.financingRecords j) := by
  obtain ⟨fee, ti, lpi, hfee, hmem, hunpaid, hval, hpo, hti, hpf, hlpi,
    hcredit⟩ := repay_ok h
  obtain ⟨hav, htp, htie, hused, hlp, htf, hwal, hrate, -, -, hrec⟩ :=
    creditRepayment_ok hcredit
  have hfeeSpec : fee = lateFeeSpec (s.financingRecords invoiceId).repaymentAmount
      (s.financingRecords invoiceId).dueDate now := computeLateFee_ok hfee
  have htiSpec : ti = totalInterestAt s invoiceId now := by
    rw [hti, hfeeSpec]
    rfl
  subst hlpi
  subst htiSpec
  refine ⟨hmem, hunpaid, by omega, by rw [hav], by rw [htp], by rw [htie],
    ?_, hused, hlp, htf, hrate, hwal, ?_⟩
  · rw [hrec]
    simp [Function.update_same]
  · intro j hj
    rw [hrec]
    exact Function.update_noteq hj _ _

/-- C5 witness: on `sBex` (payout 98000, repayment 100000, default 10%
rate), repaying exactly 100000 on time yields protocolFee 200, lpInterest
1800: availableLiquidity grows by 99800, totalPoolSize by 1800,
totalInterestEarned by 2000, and the record is marked repaid. -/
theorem repay_interest_accounting_witness :
    (exec sBex (.repay 9 42 100000 true true 200)).availableLiquidity =
      sBex.availableLiquidity + 99800 ∧
    (exec sBex (.repay 9 42 100000 true true 200)).totalPoolSize =
      sBex.totalPoolSize + 1800 ∧
    (exec sBex (.repay 9 42 100000 true true 200)).totalInterestEarned =
      sBex.totalInterestEarned + 2000 ∧
    ((exec sBex (.repay 9 42 100000 true true 200)).financingRecords
      42).repaid = true := by
  obtain ⟨-, -, -, h4, h5, h6, h7, -⟩ := repay_interest_accounting sBex
    (exec sBex (.repay 9 42 100000 true true 200)) 9 42 100000 true true 200
    rfl
  refine ⟨?_, ?_, ?_, h7⟩
  · rw [h4]; decide
  · rw [h5]; decide
  · rw [h6]; decide

/-- C6: the late fee computed by `repay` is `0` when the payment is on
time, and otherwise `min(repaymentAmount · daysLate · 1%,
repaymentAmount · 30%)` with `daysLate = ⌊(now − dueDate)/86400⌋`, under
integer arithmetic; the fee is added to the required repayment, and a
payment below `repaymentAmount + lateFee` is rejected with
`InsufficientRepayment`. -/
theorem repay_late_fee (s : State) (sender i v : Nat) (fOk rOk : Bool)
    (rp dd now : Nat) :
    (now ≤ dd → computeLateFee rp dd now = .ok 0) ∧
    (dd < now → rp * ((now - dd) / 86400) < UINT256MOD →
      rp * ((now - dd) / 86400) * 100 < UINT256MOD →
      rp * 3000 < UINT256MOD →
      computeLateFee rp dd now =
        .ok (min (rp * ((now - dd) / 86400) * 100 / 10000)
          (rp * 3000 / 10000))) ∧
    (∀ fee, computeLateFee rp dd now = .ok fee →
      fee = lateFeeSpec rp dd now) ∧
    (∀ fee, i ∈ s.usedInvoices → (s.financingRecords i).repaid = false →
      computeLateFee (s.financingRecords i).repaymentAmount
        (s.financingRecords i).dueDate now = .ok fee →
      (s.financingRecords i).repaymentAmount + fee < UINT256MOD →
      v < (s.financingRecords i).repaymentAmount + fee →
      repay s sender i v fOk rOk now = .error .insufficientRepayment) := by
  refine ⟨?_, ?_, fun fee hf => computeLateFee_ok hf, ?_⟩
  · intro h
    simp [computeLateFee, h]
  · intro h1 h2 h3 h4
    simp only [computeLateFee, if_neg (Nat.not_le.mpr h1),
      if_neg (Nat.not_le.mpr h2), if_neg (Nat.not_le.mpr h3),
      if_neg (Nat.not_le.mpr h4)]
    congr 1
    by_cases hc : rp * 3000 / 10000 < rp * ((now - dd) / 86400) * 100 / 10000
    · rw [if_pos hc, Nat.min_def, if_neg (by omega)]
    · rw [if_neg hc, Nat.min_def, if_pos (by omega)]
  · intro fee hmem hunpaid hfee hov hlt
    simp only [repay, if_neg (not_not_intro hmem), hunpaid, hfee]
    rw [if_neg (by simp), if_neg (by omega), if_pos hlt]

/-- C6 witness: a 100000 repayment 10 days late incurs lateFee 10000, so
109999 is rejected as insufficient while the on-time fee is 0; moreover
repaying 110000 at that time credits totalInterest 12000 (protocolFee
1200, lpInterest 10800: pool grows by 10800). -/
theorem repay_late_fee_witness :
    computeLateFee 100000 1000000 (1000000 + 10 * 86400) =
      Except.ok (min 10000 30000) ∧
    computeLateFee 100000 1000000 200 = Except.ok 0 ∧
    repay sBex 9 42 109999 true true (1000000 + 10 * 86400) =
      Except.error PoolError.insufficientRepayment ∧
    (exec sBex (.repay 9 42 110000 true true (1000000 + 10 * 86400))
      ).totalInterestEarned = sBex.totalInterestEarned + 12000 ∧
    (exec sBex (.repay 9 42 110000 true true (1000000 + 10 * 86400))
      ).totalPoolSize = sBex.totalPoolSize + 10800 :=
  ⟨(repay_late_fee sBex 9 42 109999 true true 100000 1000000
      (1000000 + 10 * 86400)).2.1 (by decide) (by decide) (by decide)
      (by decide),
    (repay_late_fee sBex 9 42 109999 true true 100000 1000000 200).1
      (by decide),
    (repay_late_fee sBex 9 42 109999 true true 100000 1000000
      (1000000 + 10 * 86400)).2.2.2 10000 (by decide) (by decide)
      rfl (by decide) (by decide),
    by decide, by decide⟩

/-- C8: depositing an amount `X > 0` and then immediately withdrawing `X`
with a successful outgoing transfer restores `totalPoolSize`,
`availableLiquidity` and the depositor's LP position to their starting
values. -/
theorem deposit_withdraw_round_trip (s s1 : State) (account x : Nat)
    (h1 : deposit s account x = .ok s1) :
    ∃ s2, withdraw s1 account x true = .ok s2 ∧
      s2.totalPoolSize = s.totalPoolSize ∧
      s2.availableLiquidity = s.availableLiquidity ∧
      s2.lpDeposits account = s.lpDeposits account := by
  obtain ⟨hx, rfl⟩ := processDeposit_ok h1
  have hw : withdraw { s with
      lpDeposits := Function.update s.lpDeposits account
        (s.lpDeposits account + x)
      totalPoolSize := s.totalPoolSize + x
      availableLiquidity := s.availableLiquidity + x } account x true =
      .ok { s with
        lpDeposits := Function.update (Function.update s.lpDeposits account
          (s.lpDeposits account + x)) account
          (Function.update s.lpDeposits account
            (s.lpDeposits account + x) account - x)
        totalPoolSize := s.totalPoolSize + x - x
        availableLiquidity := s.availableLiquidity + x - x } := by
    simp only [withdraw]
    rw [if_neg (by omega), if_neg (by simp [Function.update_same]),
      if_neg (by omega), if_neg (by omega), if_neg (by simp)]
  refine ⟨_, hw, ?_, ?_, by simp [Function.update_same]⟩
  · show s.totalPoolSize + x - x = s.totalPoolSize
    omega
  · show s.availableLiquidity + x - x = s.availableLiquidity
    omega

/-- C8 witness: on `sAex`, LP `3` deposits 5 and withdraws 5; pool size,
liquidity and the LP position return to their prior values. -/
theorem deposit_withdraw_round_trip_witness :
    (exec (exec sAex (.deposit 3 5)) (.withdraw 3 5 true)).totalPoolSize =
      sAex.totalPoolSize ∧
    (exec (exec sAex (.deposit 3 5)) (.withdraw 3 5 true)
      ).availableLiquidity = sAex.availableLiquidity ∧
    (exec (exec sAex (.deposit 3 5)) (.withdraw 3 5 true)).lpDeposits 3 =
      sAex.lpDeposits 3 := by
  obtain ⟨s2, hw, ha, hb, hc⟩ := deposit_withdraw_round_trip sAex
    (exec sAex (.deposit 3 5)) 3 5 rfl
  have hx : exec (exec sAex (.deposit 3 5)) (.withdraw 3 5 true) = s2 :=
    exec_of_ok (by simpa [applyOp] using hw)
  rw [hx]
  exact ⟨ha, hb, hc⟩

/-- C10: the `receive` fallback is an additional public entry point that is
extensionally equal to `deposit`: it requires a positive amount and credits
the sender's LP position, the pool size and the available liquidity by the
transferred amount, so anonymous transfers are attributed to the sender. -/
theorem receive_refines_deposit (s : State) (sender value : Nat) :
    receiveFallback s sender value = deposit s sender value ∧
    (value = 0 → receiveFallback s sender value = .error .amountZero) ∧
    (0 < value → s.lpDeposits sender + value < UINT256MOD →
      s.totalPoolSize + value < UINT256MOD →
      s.availableLiquidity + value < UINT256MOD →
      ∃ s1, receiveFallback s sender value = .ok s1 ∧
        s1.lpDeposits sender = s.lpDeposits sender + value ∧
        s1.totalPoolSize = s.totalPoolSize + value ∧
        s1.availableLiquidity = s.availableLiquidity + value) := by
  refine ⟨rfl, ?_, ?_⟩
  · intro h
    simp [receiveFallback, processDeposit, h]
  · intro h1 h2 h3 h4
    have hok : receiveFallback s sender value = .ok { s with
        lpDeposits := Function.update s.lpDeposits sender
          (s.lpDeposits sender + value)
        totalPoolSize := s.totalPoolSize + value
        availableLiquidity := s.availableLiquidity + value } := by
      simp only [receiveFallback, processDeposit]
      rw [if_neg (by omega), if_neg (by omega), if_neg (by omega),
        if_neg (by omega)]
    exact ⟨_, hok, by simp [Function.update_same], rfl, rfl⟩

/-- C10 witness: a direct transfer of 9 from account `4` to `sAex` behaves
exactly like a deposit. -/
theorem receive_refines_deposit_witness :
    receiveFallback sAex 4 9 = deposit sAex 4 9 ∧
    receiveFallback sAex 4 0 = Except.error PoolError.amountZero :=
  ⟨(receive_refines_deposit sAex 4 9).1,
    (receive_refines_deposit sAex 4 0).2.1 (by decide)⟩

lemma recInv_exec {s : State} (op : Op) (h : RecInv s) : RecInv (exec s op) := by
  cases hop : applyOp s op with
  | error e =>
    rw [exec_of_error hop]
    exact h
  | ok s1 =>
    rw [exec_of_ok hop]
    cases op with
    | deposit sender value =>
      simp only [applyOp, deposit] at hop
      obtain ⟨-, rfl⟩ := processDeposit_ok hop
      exact h
    | receiveFallback sender value =>
      simp only [applyOp, receiveFallback] at hop
      obtain ⟨-, rfl⟩ := processDeposit_ok hop
      exact h
    | withdraw sender amount tOk =>
      simp only [applyOp] at hop
      obtain ⟨-, -, -, -, -, rfl⟩ := withdraw_ok hop
      exact h
    | withdrawFinancing sender id p rp dd n dl rec tOk now =>
      simp only [applyOp] at hop
      obtain ⟨hused, -, -, -, -, -, -, rfl⟩ := withdrawFinancing_ok hop
      intro j hj
      have hj2 : j ∉ s.usedInvoices := fun hm => hj (List.mem_cons_of_mem _ hm)
      have hj1 : j ≠ id := fun he => hj (he ▸ List.mem_cons_self _ _)
      show Function.update s.financingRecords id _ j = FinancingRecord.zero
      rw [Function.update_noteq hj1]
      exact h j hj2
    | repay sender i0 v fOk rOk now =>
      simp only [applyOp] at hop
      obtain ⟨fee, ti, lpi, -, hmem, -, -, -, -, -, -, hcredit⟩ := repay_ok hop
      obtain ⟨-, -, -, hused, -, -, -, -, -, -, hrecs⟩ :=
        creditRepayment_ok hcredit
      intro j hj
      rw [hused] at hj
      have hj1 : j ≠ i0 := fun he => hj (he ▸ hmem)
      rw [hrecs, Function.update_noteq hj1]
      exact h j hj
    | updateAegisWallet caller w =>
      simp only [applyOp] at hop
      obtain ⟨-, -, -, rfl⟩ := updateAegisWallet_ok hop
      exact h
    | updateProtocolFeeRate caller rate =>
      simp only [applyOp] at hop
      obtain ⟨-, -, rfl⟩ := updateProtocolFeeRate_ok hop
      exact h
    | updateProtocolFeeReceiver caller recv =>
      simp only [applyOp] at hop
      obtain ⟨-, -, rfl⟩ := updateProtocolFeeReceiver_ok hop
      exact h
    | grantRole caller role acct =>
      simp only [applyOp] at hop
      obtain ⟨-, rfl⟩ := grantRole_ok hop
      exact h
    | revokeRole caller role acct =>
      simp only [applyOp] at hop
      obtain ⟨-, rfl⟩ := revokeRole_ok hop
      exact h
    | renounceRole caller role conf =>
      simp only [applyOp] at hop
      obtain ⟨-, rfl⟩ := renounceRole_ok hop
      exact h

lemma recInv_execOps {s : State} (ops : List Op) (h : RecInv s) :
    RecInv (execOps s ops) := by
  induction ops generalizing s with
  | nil => exact h
  | cons op t ih =>
    simp only [execOps, List.foldl_cons]
    exact ih (recInv_exec op h)

lemma reachable_recInv {s : State} (h : Reachable s) : RecInv s := by
  obtain ⟨d, w, v, ops, s0, h0, rfl⟩ := h
  refine recInv_execOps ops ?_
  obtain ⟨-, rfl⟩ := mkPool_ok h0
  intro j hj
  rfl

/-- C7: along any reachable history, a financing record is created at most
once — only by a successful `withdrawFinancing` on an id outside the
used-invoice set, which also inserts the id (and ids are never removed);
after creation every field except `repaid` is frozen, `repaid` moves only
from `false` to `true` and only through `repay`, and the record is never
deleted.  Stated as a step property over every reachable state and every
entry point. -/
theorem financing_record_lifecycle (s : State) (hr : Reachable s) (op : Op)
    (i : Nat) :
    (i ∈ s.usedInvoices → i ∈ (exec s op).usedInvoices) ∧
    (i ∈ s.usedInvoices →
      ((exec s op).financingRecords i).core = (s.financingRecords i).core) ∧
    ((s.financingRecords i).repaid = true →
      ((exec s op).financingRecords i).repaid = true) ∧
    (i ∉ s.usedInvoices →
      (exec s op).financingRecords i ≠ s.financingRecords i →
      Op.financesInvoice op i ∧ i ∈ (exec s op).usedInvoices ∧
        ((exec s op).financingRecords i).repaid = false) ∧
    ((s.financingRecords i).repaid = false →
      ((exec s op).financingRecords i).repaid = true →
      Op.repaysInvoice op i) := by
  have hrec : RecInv s := reachable_recInv hr
  cases hop : applyOp s op with
  | error e =>
    rw [exec_of_error hop]
    exact ⟨fun h => h, fun _ => rfl, fun h => h,
      fun _ hne => absurd rfl hne, fun hf ht => absurd ht (by simp [hf])⟩
  | ok s1 =>
    rw [exec_of_ok hop]
    cases op with
    | deposit sender value =>
      simp only [applyOp, deposit] at hop
      obtain ⟨-, rfl⟩ := processDeposit_ok hop
      exact ⟨fun h => h, fun _ => rfl, fun h => h,
        fun _ hne => absurd rfl hne, fun hf ht => absurd ht (by simp [hf])⟩
    | receiveFallback sender value =>
      simp only [applyOp, receiveFallback] at hop
      obtain ⟨-, rfl⟩ := processDeposit_ok hop
      exact ⟨fun h => h, fun _ => rfl, fun h => h,
        fun _ hne => absurd rfl hne, fun hf ht => absurd ht (by simp [hf])⟩
    | withdraw sender amount tOk =>
      simp only [applyOp] at hop
      obtain ⟨-, -, -, -, -, rfl⟩ := withdraw_ok hop
      exact ⟨fun h => h, fun _ => rfl, fun h => h,
        fun _ hne => absurd rfl hne, fun hf ht => absurd ht (by simp [hf])⟩
    | withdrawFinancing sender id p rp dd n dl rec tOk now =>
      simp only [applyOp] at hop
      obtain ⟨hused, -, -, -, -, -, -, rfl⟩ := withdrawFinancing_ok hop
      by_cases hii : i = id
      · subst hii
        refine ⟨fun _ => List.mem_cons_self _ _, fun h => absurd h hused,
          fun ht => ?_, fun _ _ => ⟨rfl, List.mem_cons_self _ _, ?_⟩,
          fun hf ht => ?_⟩
        · exact absurd ht (by rw [hrec _ hused]; simp [FinancingRecord.zero])
        · show (Function.update s.financingRecords i _ i).repaid = false
          rw [Function.update_same]
        · have ht2 : (Function.update s.financingRecords i
              { invoiceId := i, supplier := sender, payoutAmount := p
                repaymentAmount := rp, dueDate := dd, timestamp := now
                repaid := false } i).repaid = true := ht
          rw [Function.update_same] at ht2
          exact absurd ht2 (by simp)
      · refine ⟨fun h => List.mem_cons_of_mem _ h, fun _ => ?_,
          fun ht => ?_, fun _ hne => ?_, fun hf ht => ?_⟩
        · show (Function.update s.financingRecords id _ i).core = _
          rw [Function.update_noteq hii]
        · show (Function.update s.financingRecords id _ i).repaid = true
          rw [Function.update_noteq hii]
          exact ht
        · exact absurd (Function.update_noteq hii _ _) hne
        · exact absurd (by simpa [Function.update_noteq hii] using ht)
            (by simp [hf])
    | repay sender i0 v fOk rOk now =>
      simp only [applyOp] at hop
      obtain ⟨fee, ti, lpi, -, hmem, hunpaid, -, -, -, -, -, hcredit⟩ :=
        repay_ok hop
      obtain ⟨-, -, -, hused, -, -, -, -, -, -, hrecs⟩ :=
        creditRepayment_ok hcredit
      by_cases hii : i = i0
      · subst hii
        refine ⟨fun h => by rw [hused]; exact h, fun _ => ?_, fun _ => ?_,
          fun hni _ => absurd hmem hni, fun _ _ => rfl⟩
        · rw [hrecs, Function.update_same]
          simp [FinancingRecord.core]
        · rw [hrecs, Function.update_same]
      · refine ⟨fun h => by rw [hused]; exact h, fun _ => ?_, fun ht => ?_,
          fun _ hne => ?_, fun hf ht => ?_⟩
        · rw [hrecs, Function.update_noteq hii]
        · rw [hrecs, Function.update_noteq hii]
          exact ht
        · rw [hrecs] at hne
          exact absurd (Function.update_noteq hii _ _) hne
        · rw [hrecs, Function.update_noteq hii] at ht
          exact absurd ht (by simp [hf])
    | updateAegisWallet caller w =>
      simp only [applyOp] at hop
      obtain ⟨-, -, -, rfl⟩ := updateAegisWallet_ok hop
      exact ⟨fun h => h, fun _ => rfl, fun h => h,
        fun _ hne => absurd rfl hne, fun hf ht => absurd ht (by simp [hf])⟩
    | updateProtocolFeeRate caller rate =>
      simp only [applyOp] at hop
      obtain ⟨-, -, rfl⟩ := updateProtocolFeeRate_ok hop
      exact ⟨fun h => h, fun _ => rfl, fun h => h,
        fun _ hne => absurd rfl hne, fun hf ht => absurd ht (by simp [hf])⟩
    | updateProtocolFeeReceiver caller recv =>
      simp only [applyOp] at hop
      obtain ⟨-, -, rfl⟩ := updateProtocolFeeReceiver_ok hop
      exact ⟨fun h => h, fun _ => rfl, fun h => h,
        fun _ hne => absurd rfl hne, fun hf ht => absurd ht (by simp [hf])⟩
    | grantRole caller role acct =>
      simp only [applyOp] at hop
      obtain ⟨-, rfl⟩ := grantRole_ok hop
      exact ⟨fun h => h, fun _ => rfl, fun h => h,
        fun _ hne => absurd rfl hne, fun hf ht => absurd ht (by simp [hf])⟩
    | revokeRole caller role acct =>
      simp only [applyOp] at hop
      obtain ⟨-, rfl⟩ := revokeRole_ok hop
      exact ⟨fun h => h, fun _ => rfl, fun h => h,
        fun _ hne => absurd rfl hne, fun hf ht => absurd ht (by simp [hf])⟩
    | renounceRole caller role conf =>
      simp only [applyOp] at hop
      obtain ⟨-, rfl⟩ := renounceRole_ok hop
      exact ⟨fun h => h, fun _ => rfl, fun h => h,
        fun _ hne => absurd rfl hne, fun hf ht => absurd ht (by simp [hf])⟩

/-- C7 witness: on the reachable state `sBex`, repaying invoice `42` keeps
the id in the used set, flips `repaid` to `true`, and the flip is indeed a
`repay` step. -/
theorem financing_record_lifecycle_witness :
    42 ∈ (exec sBex (.repay 9 42 100000 true true 200)).usedInvoices ∧
    Op.repaysInvoice (.repay 9 42 100000 true true 200) 42 :=
  ⟨(financing_record_lifecycle sBex
      ⟨1, 2, 0, [.deposit 3 1000000,
        .withdrawFinancing 7 42 98000 100000 1000000 5 500 2 true 100],
        s0ex, rfl, rfl⟩ (.repay 9 42 100000 true true 200) 42).1 (by decide),
    (financing_record_lifecycle sBex
      ⟨1, 2, 0, [.deposit 3 1000000,
        .withdrawFinancing 7 42 98000 100000 1000000 5 500 2 true 100],
        s0ex, rfl, rfl⟩ (.repay 9 42 100000 true true 200) 42).2.2.2.2
      (by decide) (by decide)⟩

/-- C9 counterexample: in the reachable state `sRoleEx` the deployer has
granted `ADMIN_ROLE` to account `5` (which does not hold
`DEFAULT_ADMIN_ROLE`); the claim says `updateAegisWallet` then succeeds for
caller `5` with the non-zero identity `9`, but the call reverts with
`Unauthorized`, because the body invokes the public `revokeRole` /
`grantRole`, which require the caller to hold the admin role of
`AEGIS_ROLE`, i.e. `DEFAULT_ADMIN_ROLE`. -/
theorem rotateAuthorizer_admin_insufficient_cex :
    sRoleEx.roles ADMIN_ROLE 5 = true ∧ (9 : Nat) ≠ 0 ∧
      updateAegisWallet sRoleEx 5 9 = Except.error PoolError.unauthorized ∧
      Reachable sRoleEx :=
  ⟨by decide, by decide, rfl, ⟨1, 2, 0, [.grantRole 1 ADMIN_ROLE 5], s0ex,
    rfl, rfl⟩⟩

/-- C9 amended: `rotateAuthorizer` (`updateAegisWallet`) succeeds for every
caller holding both the Admin role and the default-admin role (the role
admin of the Authorizer role) when the new identity is non-null, atomically
revoking the Authorizer capability from the old identity and granting it to
the new one; a caller without the Admin role — and likewise a caller with
the Admin role but without the default-admin role — fails with
`Unauthorized` and no state change. -/
theorem updateAegisWallet_behavior (s : State) (caller w : Nat) :
    (s.roles ADMIN_ROLE caller = true →
      s.roles DEFAULT_ADMIN_ROLE caller = true → w ≠ 0 →
      updateAegisWallet s caller w = .ok { s with
        aegisServerWallet := w
        roles := setRole (setRole s.roles AEGIS_ROLE s.aegisServerWallet
          false) AEGIS_ROLE w true } ∧
      (exec s (.updateAegisWallet caller w)).aegisServerWallet = w ∧
      (exec s (.updateAegisWallet caller w)).roles AEGIS_ROLE w = true ∧
      (s.aegisServerWallet ≠ w →
        (exec s (.updateAegisWallet caller w)).roles AEGIS_ROLE
          s.aegisServerWallet = false) ∧
      (∀ r a, r ≠ AEGIS_ROLE →
        (exec s (.updateAegisWallet caller w)).roles r a = s.roles r a)) ∧
    (s.roles ADMIN_ROLE caller = false →
      updateAegisWallet s caller w = .error .unauthorized ∧
      exec s (.updateAegisWallet caller w) = s) ∧
    (s.roles ADMIN_ROLE caller = true →
      s.roles DEFAULT_ADMIN_ROLE caller = false → w ≠ 0 →
      updateAegisWallet s caller w = .error .unauthorized ∧
      exec s (.updateAegisWallet caller w) = s) ∧
    (w = 0 → s.roles ADMIN_ROLE caller = true →
      updateAegisWallet s caller w = .error .invalidWallet ∧
      exec s (.updateAegisWallet caller w) = s) := by
  refine ⟨?_, ?_, ?_, ?_⟩
  · intro h1 h2 h3
    have hok : updateAegisWallet s caller w = .ok { s with
        aegisServerWallet := w
        roles := setRole (setRole s.roles AEGIS_ROLE s.aegisServerWallet
          false) AEGIS_ROLE w true } := by
      unfold updateAegisWallet
      rw [if_neg (by simp [h1]), if_neg h3, if_neg (by simp [h2])]
    have hex : exec s (.updateAegisWallet caller w) = { s with
        aegisServerWallet := w
        roles := setRole (setRole s.roles AEGIS_ROLE s.aegisServerWallet
          false) AEGIS_ROLE w true } :=
      exec_of_ok (by simpa [applyOp] using hok)
    rw [hex]
    refine ⟨hok, rfl, ?_, ?_, ?_⟩
    · show setRole (setRole s.roles AEGIS_ROLE s.aegisServerWallet false)
        AEGIS_ROLE w true AEGIS_ROLE w = true
      simp [setRole]
    · intro hne
      show setRole (setRole s.roles AEGIS_ROLE s.aegisServerWallet false)
        AEGIS_ROLE w true AEGIS_ROLE s.aegisServerWallet = false
      simp only [setRole]
      rw [if_neg (by simp [hne]), if_pos (by simp)]
    · intro r a hr
      show setRole (setRole s.roles AEGIS_ROLE s.aegisServerWallet false)
        AEGIS_ROLE w true r a = s.roles r a
      simp only [setRole]
      rw [if_neg (by simp [hr]), if_neg (by simp [hr])]
  · intro h1
    have herr : updateAegisWallet s caller w = .error .unauthorized := by
      unfold updateAegisWallet
      rw [if_pos h1]
    exact ⟨herr, exec_of_error (by simpa [applyOp] using herr)⟩
  · intro h1 h2 h3
    have herr : updateAegisWallet s caller w = .error .unauthorized := by
      unfold updateAegisWallet
      rw [if_neg (by simp [h1]), if_neg h3, if_pos h2]
    exact ⟨herr, exec_of_error (by simpa [applyOp] using herr)⟩
  · intro h1 h2
    have herr : updateAegisWallet s caller w = .error .invalidWallet := by
      unfold updateAegisWallet
      rw [if_neg (by simp [h2]), if_pos h1]
    exact ⟨herr, exec_of_error (by simpa [applyOp] using herr)⟩

/-- C9 witness: the deployer `1` (holding both roles) rotates the
authorizer of `s0ex` from wallet `2` to wallet `9`; a non-admin caller `4`
is rejected with no state change. -/
theorem updateAegisWallet_behavior_witness :
    (exec s0ex (.updateAegisWallet 1 9)).aegisServerWallet = 9 ∧
    (exec s0ex (.updateAegisWallet 1 9)).roles AEGIS_ROLE 9 = true ∧
    (exec s0ex (.updateAegisWallet 1 9)).roles AEGIS_ROLE 2 = false ∧
    updateAegisWallet s0ex 4 9 = Except.error PoolError.unauthorized ∧
    exec s0ex (.updateAegisWallet 4 9) = s0ex :=
  ⟨((updateAegisWallet_behavior s0ex 1 9).1 (by decide) (by decide)
      (by decide)).2.1,
    ((updateAegisWallet_behavior s0ex 1 9).1 (by decide) (by decide)
      (by decide)).2.2.1,
    ((updateAegisWallet_behavior s0ex 1 9).1 (by decide) (by decide)
      (by decide)).2.2.2.1 (by decide),
    ((updateAegisWallet_behavior s0ex 4 9).2.1 (by decide)).1,
    ((updateAegisWallet_behavior s0ex 4 9).2.1 (by decide)).2⟩

end ArcPool
